import Mathlib

/-!
Shallow embedding of the batch accumulation and dispatch scheduler of the
SVG-to-TGS bot (src/batch_processor.py, with constants from src/config.py and
the output-filename helper from src/converter.py).

Modelling conventions:
* Python `bytes` are `List Nat`; Telegram/DB side effects are recorded as an
  explicit `Event` trace instead of being performed.
* `BatchProcessor.batch_jobs` (a dict keyed by user id) is an association
  list `List (Nat × BatchJob)`; `processing_queue` is a FIFO `List Nat`.
* The validator/converter collaborators and per-file exceptions are an oracle
  `Nat → FileOutcome` giving the outcome of each file position.
* `asyncio` tasks (the debounce timer of `_schedule_batch_processing` and the
  delayed `_cleanup_batch`) fire as explicit external `Action`s of a step
  machine; a trace is any interleaving of uploads, timer fires, worker
  dispatches and cleanup fires.
-/

/-- `FileData` dataclass (batch_processor.py lines 18-24). -/
structure FileData where
  file_data : List Nat
  filename : String
  message_id : Nat
  chat_id : Nat
deriving DecidableEq, Repr

/-- `BatchJob` dataclass (batch_processor.py lines 26-34). `created_at` is an
abstract timestamp. -/
structure BatchJob where
  user_id : Nat
  files : List FileData
  status_message_id : Nat
  chat_id : Nat
  created_at : Nat
  completed : Bool := false
deriving DecidableEq, Repr

/-- The mutable state of a `BatchProcessor`: the `batch_jobs` dict
(user_id -> BatchJob) and the `processing_queue` of user ids. -/
structure ProcState where
  batch_jobs : List (Nat × BatchJob)
  processing_queue : List Nat
deriving DecidableEq, Repr

/-- The configuration fields consumed by the scheduler core
(config.py lines 30 and 33). -/
structure Config where
  max_batch_size : Nat
  processing_delay : Nat
deriving DecidableEq, Repr

/-- The concrete configuration of config.py: `max_batch_size = 15`,
`processing_delay = 3`. -/
def defaultConfig : Config where
  max_batch_size := 15
  processing_delay := 3

/-- Dict lookup `self.batch_jobs.get(user_id)` on the association list. -/
def findJob : List (Nat × BatchJob) → Nat → Option BatchJob
  | [], _ => none
  | (k, v) :: rest, uid => if k = uid then some v else findJob rest uid

/-- Dict write `self.batch_jobs[user_id] = bj` on the association list. -/
def setJob : List (Nat × BatchJob) → Nat → BatchJob → List (Nat × BatchJob)
  | [], uid, bj => [(uid, bj)]
  | (k, v) :: rest, uid, bj =>
      if k = uid then (k, bj) :: rest else (k, v) :: setJob rest uid bj

/-- Dict delete `del self.batch_jobs[user_id]` on the association list
(no-op when the key is absent, matching the `if user_id in` guard of
`_cleanup_batch`). -/
def delJob : List (Nat × BatchJob) → Nat → List (Nat × BatchJob)
  | [], _ => []
  | (k, v) :: rest, uid =>
      if k = uid then rest else (k, v) :: delJob rest uid

/-- Observable side effects of the transport and persistence collaborators. -/
inductive Event where
  | sendMessage (chat_id : Nat) (text : String)
  | editMessage (chat_id : Nat) (message_id : Nat) (text : String)
  | sendDocument (chat_id : Nat) (filename : String) (caption : String)
  | logConversion (user_id : Nat) (filename : String) (file_size : Nat) (success : Bool)
deriving DecidableEq, Repr

/-- Result of `add_file_to_batch`: the updated state, the returned boolean,
and whether a `_schedule_batch_processing` task (debounce timer) was spawned. -/
structure AddResult where
  state : ProcState
  ok : Bool
  scheduledTimer : Bool
deriving DecidableEq, Repr

/-- `BatchProcessor.add_file_to_batch` (batch_processor.py lines 57-113).
`now` is the `datetime.now()` timestamp; `statusMsg` is the message id of the
initial status message if `bot.send_message` succeeded (`none` models the
swallowed send failure, which leaves `status_message_id` at the triggering
`message_id`). -/
def add_file_to_batch (cfg : Config) (st : ProcState) (user_id : Nat)
    (file_data : List Nat) (filename : String) (message_id : Nat)
    (chat_id : Nat) (now : Nat) (statusMsg : Option Nat) : AddResult :=
  let file_obj : FileData :=
    { file_data := file_data, filename := filename,
      message_id := message_id, chat_id := chat_id }
  match findJob st.batch_jobs user_id with
  | none =>
      let batch_job : BatchJob :=
        { user_id := user_id, files := [file_obj],
          status_message_id := statusMsg.getD message_id,
          chat_id := chat_id, created_at := now, completed := false }
      { state := { st with batch_jobs := setJob st.batch_jobs user_id batch_job },
        ok := true, scheduledTimer := true }
  | some batch_job =>
      if batch_job.files.length < cfg.max_batch_size then
        let batch_job' : BatchJob :=
          { batch_job with files := batch_job.files ++ [file_obj] }
        { state := { st with batch_jobs := setJob st.batch_jobs user_id batch_job' },
          ok := true, scheduledTimer := false }
      else
        { state :=
            { st with processing_queue := st.processing_queue ++ [user_id] },
          ok := false, scheduledTimer := false }

/-- The effect of `_schedule_batch_processing` when its timer expires
(batch_processor.py lines 115-125): `await self.processing_queue.put(user_id)`
with no guard of any kind. -/
def schedule_batch_processing_fire (st : ProcState) (user_id : Nat) : ProcState :=
  { st with processing_queue := st.processing_queue ++ [user_id] }

/-- Oracle outcome for one file: validator rejection, converter failure
(`success` false or falsy `tgs_data`), converter success, or an exception
raised while processing the file. -/
inductive FileOutcome where
  | validationReject (msg : String)
  | convertFail (msg : String)
  | convertOk
  | raised (msg : String)

/-- `Path(svg_filename).stem` as used by `get_tgs_filename`
(converter.py lines 125-128). -/
def pathStem (s : String) : String :=
  let name := (s.splitOn "/").getLastD s
  let parts := name.splitOn "."
  match parts with
  | [] => name
  | [_] => name
  | ps =>
      let stem := String.intercalate "." ps.dropLast
      if stem = "" then name else stem

/-- `SVGToTGSConverter.get_tgs_filename` (converter.py lines 125-128). -/
def get_tgs_filename (svg_filename : String) : String :=
  pathStem svg_filename ++ ".tgs"

/-- Text of `_send_error_message` (batch_processor.py lines 257-265). -/
def errorText (filename msg : String) : String :=
  "❌ " ++ filename ++ "\n" ++ msg

/-- Text of the "Converting N files..." status edit
(batch_processor.py line 157). -/
def convertingText (n : Nat) : String :=
  "🔄 Converting " ++ toString n ++ " files..."

/-- Final status text (batch_processor.py lines 222-228). -/
def finalStatusText (succ fail : Nat) : String :=
  if 0 < succ then
    if 0 < fail then
      "Done ✅" ++ "\n✅ " ++ toString succ ++ " converted | ❌ " ++
        toString fail ++ " failed"
    else "Done ✅"
  else "❌ No files could be converted"

/-- One iteration of the per-file loop of `_process_batch`
(batch_processor.py lines 166-219): the events emitted for the file and
whether it counted as a successful conversion. -/
def process_file (user_id chat_id : Nat) (f : FileData) (o : FileOutcome) :
    List Event × Bool :=
  match o with
  | .validationReject msg =>
      ([.sendMessage chat_id (errorText f.filename msg),
        .logConversion user_id f.filename f.file_data.length false], false)
  | .convertOk =>
      ([.sendDocument chat_id (get_tgs_filename f.filename)
          ("✅ " ++ f.filename ++ " → " ++ get_tgs_filename f.filename),
        .logConversion user_id f.filename f.file_data.length true], true)
  | .convertFail msg =>
      ([.sendMessage chat_id (errorText f.filename msg),
        .logConversion user_id f.filename f.file_data.length false], false)
  | .raised msg =>
      ([.sendMessage chat_id (errorText f.filename ("❌ Processing error: " ++ msg))],
       false)

/-- The full per-file loop over a list of files, the oracle indexed by file
position starting at `i`. -/
def processFiles (user_id chat_id : Nat) (o : Nat → FileOutcome) :
    Nat → List FileData → List (List Event × Bool)
  | _, [] => []
  | i, f :: rest =>
      process_file user_id chat_id f (o i) :: processFiles user_id chat_id o (i + 1) rest

/-- `successful_conversions` after the loop. -/
def succCount (rs : List (List Event × Bool)) : Nat :=
  (rs.filter (fun r => r.2)).length

/-- `failed_conversions` after the loop. -/
def failCount (rs : List (List Event × Bool)) : Nat :=
  (rs.filter (fun r => !r.2)).length

/-- `BatchProcessor._process_batch`, normal (non-raising driver) path
(batch_processor.py lines 143-242): guard on absent / completed batch, the
initial "Converting" edit, the per-file loop, the final status edit, and
marking the batch completed. Returns the new state and the emitted events. -/
def process_batch (st : ProcState) (user_id : Nat) (o : Nat → FileOutcome) :
    ProcState × List Event :=
  match findJob st.batch_jobs user_id with
  | none => (st, [])
  | some batch_job =>
      if batch_job.completed then (st, [])
      else
        let results := processFiles user_id batch_job.chat_id o 0 batch_job.files
        let events :=
          Event.editMessage batch_job.chat_id batch_job.status_message_id
              (convertingText batch_job.files.length)
            :: ((results.map (fun r => r.1)).flatten ++
              [Event.editMessage batch_job.chat_id batch_job.status_message_id
                (finalStatusText (succCount results) (failCount results))])
        let batch_job' : BatchJob := { batch_job with completed := true }
        ({ st with batch_jobs := setJob st.batch_jobs user_id batch_job' }, events)

/-- The `except` arm of `_process_batch` (batch_processor.py lines 244-255),
run when an exception escapes the overarching per-batch try: it edits the
status message to "❌ Batch processing failed" and changes nothing else; in
particular `completed` is not assigned. The `none` arm is unreachable, since
the handler only runs after the guard found a batch. -/
def process_batch_except_handler (st : ProcState) (user_id : Nat) :
    ProcState × List Event :=
  match findJob st.batch_jobs user_id with
  | none => (st, [])
  | some batch_job =>
      (st, [Event.editMessage batch_job.chat_id batch_job.status_message_id
              "❌ Batch processing failed"])

/-- External and internal occurrences driving the scheduler: an upload
admitted to `add_file_to_batch`, a debounce-timer expiry, the worker loop of
`start_processing` consuming one dispatch signal, and a `_cleanup_batch`
timer expiry. -/
inductive Act where
  | addFile (user_id : Nat) (f : FileData) (now : Nat) (statusMsg : Option Nat)
  | timerFire (user_id : Nat)
  | dispatch (o : Nat → FileOutcome)
  | cleanupFire (user_id : Nat)

/-- One step of the scheduler: `dispatch` is one iteration of
`start_processing` (batch_processor.py lines 127-141): dequeue a user id,
check membership in `batch_jobs`, and call `_process_batch`; an empty queue
blocks (no step). -/
def stepA (cfg : Config) (st : ProcState) : Act → ProcState × List Event
  | .addFile uid f now statusMsg =>
      ((add_file_to_batch cfg st uid f.file_data f.filename f.message_id
          f.chat_id now statusMsg).state, [])
  | .timerFire uid => (schedule_batch_processing_fire st uid, [])
  | .dispatch o =>
      match st.processing_queue with
      | [] => (st, [])
      | uid :: rest =>
          let st' : ProcState := { st with processing_queue := rest }
          match findJob st'.batch_jobs uid with
          | some _ => process_batch st' uid o
          | none => (st', [])
  | .cleanupFire uid =>
      ({ st with batch_jobs := delJob st.batch_jobs uid }, [])

/-- Run a list of actions from a state (events discarded). -/
def runActions (cfg : Config) : ProcState → List Act → ProcState
  | st, [] => st
  | st, a :: rest => runActions cfg (stepA cfg st a).1 rest

/-- The freshly constructed `BatchProcessor` state: no jobs, empty queue. -/
def initState : ProcState where
  batch_jobs := []
  processing_queue := []

/-- `true` iff the user has a stored batch that is not completed. -/
def isActive (st : ProcState) (uid : Nat) : Bool :=
  match findJob st.batch_jobs uid with
  | some bj => !bj.completed
  | none => false

/-- `true` iff the user has a stored batch that is completed. -/
def hasCompletedJob (st : ProcState) (uid : Nat) : Bool :=
  match findJob st.batch_jobs uid with
  | some bj => bj.completed
  | none => false

/-- `true` on status-message edits. -/
def isStatusEdit : Event → Bool
  | .editMessage _ _ _ => true
  | _ => false

/-! ### Association-list lemmas -/

theorem findJob_setJob_self (jobs : List (Nat × BatchJob)) (u : Nat) (b : BatchJob) :
    findJob (setJob jobs u b) u = some b := by
  induction jobs with
  | nil => simp [setJob, findJob]
  | cons q rest ih =>
      obtain ⟨k, v⟩ := q
      by_cases hk : k = u <;> simp [setJob, findJob, hk, ih]

theorem findJob_setJob_ne (jobs : List (Nat × BatchJob)) (u v : Nat) (b : BatchJob)
    (h : v ≠ u) : findJob (setJob jobs u b) v = findJob jobs v := by
  induction jobs with
  | nil => simp [setJob, findJob, Ne.symm h]
  | cons q rest ih =>
      obtain ⟨k, w⟩ := q
      by_cases hk : k = u
      · subst hk
        have hkv : ¬k = v := fun hh => h hh.symm
        simp [setJob, findJob, hkv]
      · by_cases hv : k = v <;> simp [setJob, findJob, hk, hv, ih, h]

theorem findJob_delJob_ne (jobs : List (Nat × BatchJob)) (u v : Nat)
    (h : v ≠ u) : findJob (delJob jobs u) v = findJob jobs v := by
  induction jobs with
  | nil => simp [delJob]
  | cons q rest ih =>
      obtain ⟨k, w⟩ := q
      by_cases hk : k = u
      · subst hk
        have hkv : ¬k = v := fun hh => h hh.symm
        simp [delJob, findJob, hkv]
      · by_cases hv : k = v <;> simp [delJob, findJob, hk, hv, ih, h]

theorem mem_setJob (jobs : List (Nat × BatchJob)) (u : Nat) (b : BatchJob)
    (p : Nat × BatchJob) (h : p ∈ setJob jobs u b) : p ∈ jobs ∨ p = (u, b) := by
  induction jobs with
  | nil =>
      simp [setJob] at h
      right; exact h
  | cons q rest ih =>
      obtain ⟨k, v⟩ := q
      by_cases hk : k = u
      · subst hk
        simp [setJob] at h
        rcases h with h | h
        · right; simp [h]
        · left; exact List.mem_cons_of_mem _ h
      · simp [setJob, hk] at h
        rcases h with h | h
        · left; simp [h]
        · rcases ih h with h2 | h2
          · left; exact List.mem_cons_of_mem _ h2
          · right; exact h2

theorem mem_delJob (jobs : List (Nat × BatchJob)) (u : Nat)
    (p : Nat × BatchJob) (h : p ∈ delJob jobs u) : p ∈ jobs := by
  induction jobs with
  | nil => simp [delJob] at h
  | cons q rest ih =>
      obtain ⟨k, v⟩ := q
      by_cases hk : k = u
      · subst hk
        simp [delJob] at h
        exact List.mem_cons_of_mem _ h
      · simp [delJob, hk] at h
        rcases h with h | h
        · simp [h]
        · exact List.mem_cons_of_mem _ (ih h)

theorem findJob_mem (jobs : List (Nat × BatchJob)) (v : Nat) (bj : BatchJob)
    (h : findJob jobs v = some bj) : (v, bj) ∈ jobs := by
  induction jobs with
  | nil => simp [findJob] at h
  | cons q rest ih =>
      obtain ⟨k, w⟩ := q
      by_cases hk : k = v
      · subst hk
        simp [findJob] at h
        simp [h]
      · simp [findJob, hk] at h
        exact List.mem_cons_of_mem _ (ih h)

/-! ### Guard and preservation lemmas -/

theorem process_batch_inactive (st : ProcState) (uid : Nat) (o : Nat → FileOutcome)
    (h : isActive st uid = false) : process_batch st uid o = (st, []) := by
  unfold isActive at h
  cases hj : findJob st.batch_jobs uid with
  | none => simp [process_batch, hj]
  | some bj =>
      rw [hj] at h
      simp at h
      simp [process_batch, hj, h]

theorem isActive_of_completed (st : ProcState) (uid : Nat)
    (h : hasCompletedJob st uid = true) : isActive st uid = false := by
  unfold hasCompletedJob at h
  unfold isActive
  cases hj : findJob st.batch_jobs uid with
  | none => simp
  | some bj => rw [hj] at h; simp at h; simp [h]

theorem step_preserves_completed (cfg : Config) (st : ProcState) (uid : Nat) (a : Act)
    (hne : a ≠ Act.cleanupFire uid) (h : hasCompletedJob st uid = true) :
    hasCompletedJob (stepA cfg st a).1 uid = true := by
  have hj0 : ∃ bj, findJob st.batch_jobs uid = some bj ∧ bj.completed = true := by
    unfold hasCompletedJob at h
    cases hj : findJob st.batch_jobs uid with
    | none => rw [hj] at h; cases h
    | some bj => rw [hj] at h; exact ⟨bj, rfl, h⟩
  obtain ⟨bj, hj, hc⟩ := hj0
  cases a with
  | addFile uid2 f now sm =>
      simp only [stepA, add_file_to_batch]
      by_cases hu : uid2 = uid
      · subst hu
        rw [hj]
        by_cases hlt : bj.files.length < cfg.max_batch_size
        · simp only [if_pos hlt]
          simp [hasCompletedJob, findJob_setJob_self, hc]
        · simp only [if_neg hlt]
          simp [hasCompletedJob, hj, hc]
      · have hni : uid ≠ uid2 := fun hh => hu hh.symm
        cases hj2 : findJob st.batch_jobs uid2 with
        | none =>
            simp [hasCompletedJob, findJob_setJob_ne _ _ _ _ hni, hj, hc]
        | some bj2 =>
            by_cases hlt : bj2.files.length < cfg.max_batch_size <;>
              simp [hlt, hasCompletedJob, findJob_setJob_ne _ _ _ _ hni, hj, hc]
  | timerFire uid2 =>
      simp [stepA, schedule_batch_processing_fire, hasCompletedJob, hj, hc]
  | dispatch o =>
      simp only [stepA]
      cases hq : st.processing_queue with
      | nil => simp [hasCompletedJob, hj, hc]
      | cons v rest =>
          simp only []
          cases hj2 : findJob st.batch_jobs v with
          | none => simp [hj2, hasCompletedJob, hj, hc]
          | some bj2 =>
              simp only [hj2]
              cases hcb2 : bj2.completed
              · by_cases hv : v = uid
                · subst hv
                  simp [process_batch, hj2, hcb2, hasCompletedJob, findJob_setJob_self]
                · have hni : uid ≠ v := fun hh => hv hh.symm
                  simp [process_batch, hj2, hcb2, hasCompletedJob,
                    findJob_setJob_ne _ _ _ _ hni, hj, hc]
              · simp [process_batch, hj2, hcb2, hasCompletedJob, hj, hc]
  | cleanupFire uid2 =>
      have hni : uid ≠ uid2 := fun hh => hne (congrArg Act.cleanupFire hh.symm)
      simp [stepA, hasCompletedJob, findJob_delJob_ne _ _ _ hni, hj, hc]

theorem run_preserves_completed (cfg : Config) (uid : Nat) (acts : List Act)
    (st : ProcState) (hacts : ∀ a ∈ acts, a ≠ Act.cleanupFire uid)
    (h : hasCompletedJob st uid = true) :
    hasCompletedJob (runActions cfg st acts) uid = true := by
  induction acts generalizing st with
  | nil => simpa [runActions] using h
  | cons a rest ih =>
      simp only [runActions]
      exact ih (stepA cfg st a).1
        (fun b hb => hacts b (List.mem_cons_of_mem a hb))
        (step_preserves_completed cfg st uid a (hacts a (List.mem_cons_self a rest)) h)

theorem dispatch_sets_completed (cfg : Config) (st : ProcState) (uid : Nat)
    (o : Nat → FileOutcome) (rest : List Nat)
    (hq : st.processing_queue = uid :: rest) (ha : isActive st uid = true) :
    hasCompletedJob (stepA cfg st (Act.dispatch o)).1 uid = true := by
  unfold isActive at ha
  cases hj : findJob st.batch_jobs uid with
  | none => rw [hj] at ha; cases ha
  | some bj =>
      rw [hj] at ha
      simp at ha
      simp only [stepA, hq]
      simp [hj, process_batch, ha, hasCompletedJob, findJob_setJob_self]

/-- All stored batches respect the size bound. -/
def jobsBounded (cfg : Config) (st : ProcState) : Prop :=
  ∀ p ∈ st.batch_jobs, (Prod.snd p).files.length ≤ cfg.max_batch_size

theorem step_preserves_bounded (cfg : Config) (st : ProcState) (a : Act)
    (hmax : 1 ≤ cfg.max_batch_size) (h : jobsBounded cfg st) :
    jobsBounded cfg (stepA cfg st a).1 := by
  cases a with
  | addFile uid2 f now sm =>
      simp only [stepA, add_file_to_batch]
      cases hj2 : findJob st.batch_jobs uid2 with
      | none =>
          intro p hp
          rcases mem_setJob _ _ _ _ hp with hp2 | hp2
          · exact h p hp2
          · subst hp2; simpa using hmax
      | some bj2 =>
          by_cases hlt : bj2.files.length < cfg.max_batch_size
          · simp only [if_pos hlt]
            intro p hp
            rcases mem_setJob _ _ _ _ hp with hp2 | hp2
            · exact h p hp2
            · subst hp2
              simp only [List.length_append, List.length_cons, List.length_nil]
              omega
          · simp only [if_neg hlt]
            intro p hp
            exact h p hp
  | timerFire uid2 =>
      intro p hp
      exact h p hp
  | dispatch o =>
      simp only [stepA]
      cases hq : st.processing_queue with
      | nil => intro p hp; exact h p hp
      | cons v rest =>
          simp only []
          cases hj2 : findJob st.batch_jobs v with
          | none => intro p hp; exact h p hp
          | some bj2 =>
              simp only [hj2]
              cases hcb2 : bj2.completed
              · simp only [process_batch, hj2, hcb2]
                intro p hp
                simp only [Bool.false_eq_true, if_false] at hp
                rcases mem_setJob _ _ _ _ hp with hp2 | hp2
                · exact h p hp2
                · subst hp2
                  exact h (v, bj2) (findJob_mem _ _ _ hj2)
              · simp only [process_batch, hj2, hcb2]
                intro p hp
                exact h p hp
  | cleanupFire uid2 =>
      intro p hp
      exact h p (mem_delJob _ _ _ hp)

theorem run_preserves_bounded (cfg : Config) (acts : List Act) (st : ProcState)
    (hmax : 1 ≤ cfg.max_batch_size) (h : jobsBounded cfg st) :
    jobsBounded cfg (runActions cfg st acts) := by
  induction acts generalizing st with
  | nil => simpa [runActions] using h
  | cons a rest ih =>
      simp only [runActions]
      exact ih (stepA cfg st a).1 (step_preserves_bounded cfg st a hmax h)

/-! ### Per-file loop lemmas -/

theorem processFiles_append (uid chat : Nat) (o : Nat → FileOutcome)
    (i : Nat) (xs ys : List FileData) :
    processFiles uid chat o i (xs ++ ys)
      = processFiles uid chat o i xs ++ processFiles uid chat o (i + xs.length) ys := by
  induction xs generalizing i with
  | nil => simp [processFiles]
  | cons f rest ih =>
      have hidx : i + 1 + rest.length = i + (rest.length + 1) := by omega
      simp only [List.cons_append, List.append_eq, processFiles, ih, List.length_cons, hidx]

theorem processFiles_length (uid chat : Nat) (o : Nat → FileOutcome)
    (i : Nat) (xs : List FileData) :
    (processFiles uid chat o i xs).length = xs.length := by
  induction xs generalizing i with
  | nil => rfl
  | cons f rest ih => simp [processFiles, ih]

theorem succCount_add_failCount (rs : List (List Event × Bool)) :
    succCount rs + failCount rs = rs.length := by
  induction rs with
  | nil => rfl
  | cons r rest ih =>
      cases hr : r.2 <;>
        simp [succCount, failCount, List.filter_cons, hr] at ih ⊢ <;> omega

theorem process_file_no_edit (uid chat : Nat) (f : FileData) (o : FileOutcome) :
    ((process_file uid chat f o).1).filter isStatusEdit = [] := by
  cases o <;> rfl

theorem processFiles_no_edit (uid chat : Nat) (o : Nat → FileOutcome)
    (i : Nat) (xs : List FileData) :
    (((processFiles uid chat o i xs).map (fun r => r.1)).flatten).filter isStatusEdit
      = [] := by
  induction xs generalizing i with
  | nil => rfl
  | cons f rest ih =>
      simp only [processFiles, List.map_cons, List.flatten_cons, List.filter_append,
        process_file_no_edit, List.nil_append]
      exact ih (i + 1)

/-! ### Claims -/

/-- C1 (counterexample): with the shipped configuration
(`max_batch_size = 15`), fifteen uploads from the same user — the fifteenth
being the append that makes the batch reach `maxBatchSize` — leave the
processing queue empty and the batch unsealed: no dispatch signal is enqueued
at the file that fills the batch, contrary to the claim. -/
theorem claim_C1_counterexample :
    (runActions defaultConfig initState
        ((List.range 15).map
          (fun i => Act.addFile 1 ⟨[i], "f.svg", 100 + i, 9⟩ 0 (some 50)))).processing_queue
      = []
  ∧ ((findJob (runActions defaultConfig initState
        ((List.range 15).map
          (fun i => Act.addFile 1 ⟨[i], "f.svg", 100 + i, 9⟩ 0 (some 50)))).batch_jobs 1).map
        (fun bj => bj.files.length))
      = some 15 := by
  constructor <;> decide

/-- C1 (amended): an append that stays within `maxBatchSize` — including the
append that makes the count reach exactly `maxBatchSize` — never enqueues a
dispatch signal: it appends the file and returns `True`, and the batch then
waits for the debounce timer. A dispatch signal is produced by
`add_file_to_batch` only on a later call that finds the batch already full
(which discards that overflow file). -/
theorem claim_C1_amended :
    ∀ (cfg : Config) (st : ProcState) (uid : Nat) (d : List Nat) (fn : String)
      (mi ci now : Nat) (sm : Option Nat) (bj : BatchJob),
    findJob st.batch_jobs uid = some bj →
    bj.files.length < cfg.max_batch_size →
    (add_file_to_batch cfg st uid d fn mi ci now sm).state.processing_queue
        = st.processing_queue
    ∧ (add_file_to_batch cfg st uid d fn mi ci now sm).ok = true
    ∧ findJob (add_file_to_batch cfg st uid d fn mi ci now sm).state.batch_jobs uid
        = some { bj with files := bj.files ++ [⟨d, fn, mi, ci⟩] } := by
  intro cfg st uid d fn mi ci now sm bj hj hlt
  refine ⟨?_, ?_, ?_⟩ <;> simp [add_file_to_batch, hj, hlt, findJob_setJob_self]

/-- C1 (amended) witness: a second file appended to a one-file batch under the
shipped configuration. -/
theorem claim_C1_amended_witness :
    (add_file_to_batch defaultConfig
        ⟨[(1, ⟨1, [⟨[0], "a.svg", 3, 9⟩], 50, 9, 0, false⟩)], [7]⟩
        1 [1] "b.svg" 4 9 2 (some 51)).state.processing_queue = [7]
  ∧ (add_file_to_batch defaultConfig
        ⟨[(1, ⟨1, [⟨[0], "a.svg", 3, 9⟩], 50, 9, 0, false⟩)], [7]⟩
        1 [1] "b.svg" 4 9 2 (some 51)).ok = true
  ∧ findJob (add_file_to_batch defaultConfig
        ⟨[(1, ⟨1, [⟨[0], "a.svg", 3, 9⟩], 50, 9, 0, false⟩)], [7]⟩
        1 [1] "b.svg" 4 9 2 (some 51)).state.batch_jobs 1
      = some ⟨1, [⟨[0], "a.svg", 3, 9⟩, ⟨[1], "b.svg", 4, 9⟩], 50, 9, 0, false⟩ :=
  claim_C1_amended defaultConfig
    ⟨[(1, ⟨1, [⟨[0], "a.svg", 3, 9⟩], 50, 9, 0, false⟩)], [7]⟩
    1 [1] "b.svg" 4 9 2 (some 51) ⟨1, [⟨[0], "a.svg", 3, 9⟩], 50, 9, 0, false⟩
    rfl (by decide)

/-- C10: when the submitter's existing batch already holds `maxBatchSize`
files, `add_file_to_batch` returns `False` and enqueues the dispatch signal,
and the overflow file is discarded: the jobs map is unchanged — no append to
the current batch, no new batch, the file retained nowhere. -/
theorem claim_C10_overflow_discarded :
    ∀ (cfg : Config) (st : ProcState) (uid : Nat) (d : List Nat) (fn : String)
      (mi ci now : Nat) (sm : Option Nat) (bj : BatchJob),
    findJob st.batch_jobs uid = some bj →
    bj.files.length = cfg.max_batch_size →
    (add_file_to_batch cfg st uid d fn mi ci now sm).ok = false
    ∧ (add_file_to_batch cfg st uid d fn mi ci now sm).state.batch_jobs
        = st.batch_jobs
    ∧ (add_file_to_batch cfg st uid d fn mi ci now sm).state.processing_queue
        = st.processing_queue ++ [uid] := by
  intro cfg st uid d fn mi ci now sm bj hj heq
  have hnlt : ¬bj.files.length < cfg.max_batch_size := by omega
  refine ⟨?_, ?_, ?_⟩ <;> simp [add_file_to_batch, hj, hnlt]

/-- C10 witness: overflow upload at a full batch (bound 1 for concreteness). -/
theorem claim_C10_overflow_discarded_witness :
    (add_file_to_batch ⟨1, 3⟩
        ⟨[(7, ⟨7, [⟨[0], "a.svg", 2, 9⟩], 50, 9, 0, false⟩)], []⟩
        7 [1] "b.svg" 3 9 4 (some 51)).ok = false
  ∧ (add_file_to_batch ⟨1, 3⟩
        ⟨[(7, ⟨7, [⟨[0], "a.svg", 2, 9⟩], 50, 9, 0, false⟩)], []⟩
        7 [1] "b.svg" 3 9 4 (some 51)).state.batch_jobs
      = [(7, ⟨7, [⟨[0], "a.svg", 2, 9⟩], 50, 9, 0, false⟩)]
  ∧ (add_file_to_batch ⟨1, 3⟩
        ⟨[(7, ⟨7, [⟨[0], "a.svg", 2, 9⟩], 50, 9, 0, false⟩)], []⟩
        7 [1] "b.svg" 3 9 4 (some 51)).state.processing_queue = [7] :=
  claim_C10_overflow_discarded ⟨1, 3⟩
    ⟨[(7, ⟨7, [⟨[0], "a.svg", 2, 9⟩], 50, 9, 0, false⟩)], []⟩
    7 [1] "b.svg" 3 9 4 (some 51) ⟨7, [⟨[0], "a.svg", 2, 9⟩], 50, 9, 0, false⟩
    rfl rfl

/-- C8: size-bound invariant. In every state reachable from the initial
`BatchProcessor` state under any interleaving of uploads, timer fires, worker
dispatches and cleanups — provided `max_batch_size ≥ 1`, as the shipped value
15 is — every stored batch holds at most `maxBatchSize` files; consequently a
batch holding `maxBatchSize` files never receives a further append. -/
theorem claim_C8_size_invariant :
    ∀ (cfg : Config), 1 ≤ cfg.max_batch_size →
    ∀ (acts : List Act) (uid : Nat) (bj : BatchJob),
    findJob (runActions cfg initState acts).batch_jobs uid = some bj →
    bj.files.length ≤ cfg.max_batch_size := by
  intro cfg hmax acts uid bj hfind
  have h0 : jobsBounded cfg initState := by
    intro p hp
    simp [initState] at hp
  exact run_preserves_bounded cfg acts initState hmax h0 _ (findJob_mem _ _ _ hfind)

/-- C8 witness: the bound evaluated after one concrete upload. -/
theorem claim_C8_size_invariant_witness :
    (BatchJob.mk 1 [⟨[0], "a.svg", 3, 9⟩] 50 9 0 false).files.length
      ≤ defaultConfig.max_batch_size :=
  claim_C8_size_invariant defaultConfig (by decide)
    [Act.addFile 1 ⟨[0], "a.svg", 3, 9⟩ 0 (some 50)] 1
    (BatchJob.mk 1 [⟨[0], "a.svg", 3, 9⟩] 50 9 0 false) rfl

/-- C7: a per-file failure never halts processing of the later files of the
same batch. The per-file loop produces exactly one tallied result per file
whatever the outcome oracle returns (validation rejection, conversion
failure, raised exception, or success): it decomposes over any split of the
file list — so the files after a failing one are processed exactly as they
would be otherwise — and every file is counted as exactly one of
success/failure. -/
theorem claim_C7_no_early_abort :
    ∀ (uid chat : Nat) (o : Nat → FileOutcome) (i : Nat) (xs ys : List FileData),
    processFiles uid chat o i (xs ++ ys)
      = processFiles uid chat o i xs ++ processFiles uid chat o (i + xs.length) ys
    ∧ (processFiles uid chat o i xs).length = xs.length
    ∧ succCount (processFiles uid chat o i xs) + failCount (processFiles uid chat o i xs)
        = xs.length := by
  intro uid chat o i xs ys
  exact ⟨processFiles_append uid chat o i xs ys,
    processFiles_length uid chat o i xs,
    by rw [succCount_add_failCount, processFiles_length]⟩

/-- C2 (code evaluated at the failing input): user 1 uploads `a.svg`; the
debounce timer fires; the worker processes the batch (marking it completed);
then — before the 300-second cleanup deletes the batch — user 1 uploads
`b.svg`. The code appends `b.svg` to the already-completed batch (2 files,
`completed = true`, status-message handle still the original 50 rather than
the fresh 51) instead of creating a fresh batch, and leaves the dispatch
queue empty, so `b.svg` is never processed. -/
theorem claim_C2_completed_batch_mutated :
    (findJob (runActions defaultConfig initState
        [Act.addFile 1 ⟨[0], "a.svg", 3, 9⟩ 0 (some 50), Act.timerFire 1,
         Act.dispatch (fun _ => FileOutcome.convertOk),
         Act.addFile 1 ⟨[1], "b.svg", 4, 9⟩ 7 (some 51)]).batch_jobs 1).map
        (fun bj => (bj.files.length, bj.completed, bj.status_message_id))
      = some (2, true, 50)
  ∧ (runActions defaultConfig initState
        [Act.addFile 1 ⟨[0], "a.svg", 3, 9⟩ 0 (some 50), Act.timerFire 1,
         Act.dispatch (fun _ => FileOutcome.convertOk),
         Act.addFile 1 ⟨[1], "b.svg", 4, 9⟩ 7 (some 51)]).processing_queue
      = [] := by
  constructor <;> decide

/-- C3 (counterexample): `_process_batch` contains no periodic progress
reporting. A batch of 10 files, each converting successfully, emits exactly
two status-message edits — the initial "Converting 10 files..." and the final
"Done ✅" — and in particular no progress update (processed count, success
count, failure count, percentage) after the 10th file. -/
theorem claim_C3_counterexample :
    ((process_batch
        ⟨[(1, ⟨1, (List.range 10).map (fun i => ⟨[i], "f.svg", i, 9⟩), 50, 9, 0, false⟩)], []⟩
        1 (fun _ => FileOutcome.convertOk)).2).filter isStatusEdit
      = [Event.editMessage 9 50 "🔄 Converting 10 files...",
         Event.editMessage 9 50 "Done ✅"] := by
  decide

/-- C3 (amended): no interim progress update is emitted while a batch is
processed. The status-message handle receives exactly two edits per processed
batch: the "Converting N files..." announcement and a single final summary
computed from the success/failure tallies; the per-file events are message
sends, document sends and persistence records, never status edits. Failures
of the transport are swallowed in the source and are not modelled as events.
-/
theorem claim_C3_amended :
    ∀ (st : ProcState) (uid : Nat) (o : Nat → FileOutcome) (bj : BatchJob),
    findJob st.batch_jobs uid = some bj →
    bj.completed = false →
    ((process_batch st uid o).2).filter isStatusEdit
      = [Event.editMessage bj.chat_id bj.status_message_id
           (convertingText bj.files.length),
         Event.editMessage bj.chat_id bj.status_message_id
           (finalStatusText
             (succCount (processFiles uid bj.chat_id o 0 bj.files))
             (failCount (processFiles uid bj.chat_id o 0 bj.files)))] := by
  intro st uid o bj hj hc
  simp only [process_batch, hj, hc, Bool.false_eq_true, if_false]
  rw [List.filter_cons, List.filter_append, processFiles_no_edit]
  simp [isStatusEdit]

/-- C3 (amended) witness: a two-file batch, one success and one validation
rejection. -/
theorem claim_C3_amended_witness :
    ((process_batch
        ⟨[(1, ⟨1, [⟨[7], "a.svg", 3, 9⟩, ⟨[8], "b.svg", 4, 9⟩], 50, 9, 0, false⟩)], []⟩
        1 (fun i => if i = 0 then FileOutcome.convertOk
            else FileOutcome.validationReject "bad")).2).filter isStatusEdit
      = [Event.editMessage 9 50 (convertingText 2),
         Event.editMessage 9 50 (finalStatusText 1 1)] :=
  claim_C3_amended
    ⟨[(1, ⟨1, [⟨[7], "a.svg", 3, 9⟩, ⟨[8], "b.svg", 4, 9⟩], 50, 9, 0, false⟩)], []⟩
    1 (fun i => if i = 0 then FileOutcome.convertOk
        else FileOutcome.validationReject "bad")
    ⟨1, [⟨[7], "a.svg", 3, 9⟩, ⟨[8], "b.svg", 4, 9⟩], 50, 9, 0, false⟩
    rfl rfl

/-- C4 (counterexample): the `except` arm of `_process_batch` does emit the
terminal "❌ Batch processing failed" edit, but it does not mark the batch
completed: at a concrete non-completed batch, after the handler runs the
submitter still has no completed batch — the batch slot is not released,
contrary to the claim. -/
theorem claim_C4_counterexample :
    (process_batch_except_handler
        ⟨[(1, ⟨1, [⟨[0], "a.svg", 3, 9⟩], 50, 9, 0, false⟩)], []⟩ 1).2
      = [Event.editMessage 9 50 "❌ Batch processing failed"]
  ∧ hasCompletedJob
      (process_batch_except_handler
        ⟨[(1, ⟨1, [⟨[0], "a.svg", 3, 9⟩], 50, 9, 0, false⟩)], []⟩ 1).1 1
      = false := by
  constructor <;> decide

/-- C4 (amended): when an exception escapes the overarching per-batch
sequence, the handler emits the terminal "❌ Batch processing failed" status
update and changes nothing else: the state is returned unchanged, so the
batch is NOT marked completed and the submitter's batch slot is not
released. -/
theorem claim_C4_amended :
    ∀ (st : ProcState) (uid : Nat) (bj : BatchJob),
    findJob st.batch_jobs uid = some bj →
    process_batch_except_handler st uid
      = (st, [Event.editMessage bj.chat_id bj.status_message_id
                "❌ Batch processing failed"]) := by
  intro st uid bj hj
  simp [process_batch_except_handler, hj]

/-- C4 (amended) witness. -/
theorem claim_C4_amended_witness :
    process_batch_except_handler
        ⟨[(2, ⟨2, [⟨[5], "c.svg", 6, 11⟩], 60, 11, 0, false⟩)], [2]⟩ 2
      = (⟨[(2, ⟨2, [⟨[5], "c.svg", 6, 11⟩], 60, 11, 0, false⟩)], [2]⟩,
         [Event.editMessage 11 60 "❌ Batch processing failed"]) :=
  claim_C4_amended
    ⟨[(2, ⟨2, [⟨[5], "c.svg", 6, 11⟩], 60, 11, 0, false⟩)], [2]⟩ 2
    ⟨2, [⟨[5], "c.svg", 6, 11⟩], 60, 11, 0, false⟩ rfl

/-- C5: at-most-once processing. (i) `_process_batch` is a no-op with no
emitted events whenever the referenced batch is absent or already completed —
redundant dispatch signals (timer fire plus size-cap seal) are dropped.
(ii) an effective dispatch (queue head refers to a stored, not-completed
batch) leaves the submitter with a completed stored batch. (iii) that
completed-batch state persists under every further action except a cleanup
eviction of that submitter, and in it the submitter has no active batch — so
no later dispatch can process the same batch again: a second effective
processing of the same submitter requires the first batch to have been
destroyed by cleanup in between. -/
theorem claim_C5_at_most_once :
    (∀ (st : ProcState) (uid : Nat) (o : Nat → FileOutcome),
      isActive st uid = false → process_batch st uid o = (st, []))
  ∧ (∀ (cfg : Config) (st : ProcState) (uid : Nat) (o : Nat → FileOutcome)
        (rest : List Nat),
      st.processing_queue = uid :: rest → isActive st uid = true →
      hasCompletedJob (stepA cfg st (Act.dispatch o)).1 uid = true)
  ∧ (∀ (cfg : Config) (st : ProcState) (uid : Nat) (acts : List Act),
      hasCompletedJob st uid = true →
      (∀ a ∈ acts, a ≠ Act.cleanupFire uid) →
      isActive (runActions cfg st acts) uid = false) :=
  ⟨process_batch_inactive,
   fun cfg st uid o rest hq ha => dispatch_sets_completed cfg st uid o rest hq ha,
   fun cfg st uid acts h hacts =>
     isActive_of_completed _ _ (run_preserves_completed cfg uid acts st hacts h)⟩

/-- C5 witness: (i) at a state whose batch is completed, (ii) at an effective
dispatch, (iii) across a timer fire for another user. -/
theorem claim_C5_at_most_once_witness :
    process_batch ⟨[(1, ⟨1, [], 50, 9, 0, true⟩)], []⟩ 1 (fun _ => FileOutcome.convertOk)
      = (⟨[(1, ⟨1, [], 50, 9, 0, true⟩)], []⟩, [])
  ∧ hasCompletedJob
      (stepA defaultConfig ⟨[(1, ⟨1, [⟨[0], "a.svg", 3, 9⟩], 50, 9, 0, false⟩)], [1]⟩
        (Act.dispatch (fun _ => FileOutcome.convertOk))).1 1 = true
  ∧ isActive
      (runActions defaultConfig ⟨[(1, ⟨1, [], 50, 9, 0, true⟩)], []⟩
        [Act.timerFire 2]) 1 = false :=
  ⟨claim_C5_at_most_once.1 ⟨[(1, ⟨1, [], 50, 9, 0, true⟩)], []⟩ 1
      (fun _ => FileOutcome.convertOk) rfl,
   claim_C5_at_most_once.2.1 defaultConfig
      ⟨[(1, ⟨1, [⟨[0], "a.svg", 3, 9⟩], 50, 9, 0, false⟩)], [1]⟩ 1
      (fun _ => FileOutcome.convertOk) [] rfl rfl,
   claim_C5_at_most_once.2.2 defaultConfig ⟨[(1, ⟨1, [], 50, 9, 0, true⟩)], []⟩ 1
      [Act.timerFire 2] rfl
      (by intro a ha
          rw [List.mem_singleton] at ha
          subst ha
          exact fun h => Act.noConfusion h)⟩

/-- C6 (counterexample): the debounce timer performs no guard at expiry. At a
state whose only batch for user 1 is already completed, the timer expiry
still enqueues the dispatch signal for user 1, contrary to the claim that
nothing is enqueued when the batch is completed at expiry. -/
theorem claim_C6_counterexample :
    (schedule_batch_processing_fire
        ⟨[(1, ⟨1, [⟨[0], "a.svg", 3, 9⟩], 50, 9, 0, true⟩)], []⟩ 1).processing_queue
      = [1] := rfl

/-- C6 (amended): the timer expiry of `_schedule_batch_processing`
unconditionally enqueues the dispatch signal for its submitter; the
absent-or-completed guard is applied instead when the signal is consumed:
the worker loop drops a signal whose batch is absent, and `_process_batch`
drops one whose batch is already completed, in both cases only popping the
queue and emitting nothing. -/
theorem claim_C6_amended :
    (∀ (st : ProcState) (uid : Nat),
      schedule_batch_processing_fire st uid
        = { st with processing_queue := st.processing_queue ++ [uid] })
  ∧ (∀ (cfg : Config) (st : ProcState) (uid : Nat) (rest : List Nat)
        (o : Nat → FileOutcome),
      st.processing_queue = uid :: rest →
      findJob st.batch_jobs uid = none →
      stepA cfg st (Act.dispatch o) = ({ st with processing_queue := rest }, []))
  ∧ (∀ (cfg : Config) (st : ProcState) (uid : Nat) (rest : List Nat)
        (o : Nat → FileOutcome) (bj : BatchJob),
      st.processing_queue = uid :: rest →
      findJob st.batch_jobs uid = some bj →
      bj.completed = true →
      stepA cfg st (Act.dispatch o) = ({ st with processing_queue := rest }, [])) := by
  refine ⟨fun st uid => rfl, ?_, ?_⟩
  · intro cfg st uid rest o hq hjn
    simp only [stepA, hq]
    simp [hjn]
  · intro cfg st uid rest o bj hq hjs hc
    simp only [stepA, hq]
    simp [hjs, process_batch, hc]

/-- C6 (amended) witness: the three parts at concrete states (an absent batch
and a completed batch at the queue head). -/
theorem claim_C6_amended_witness :
    schedule_batch_processing_fire ⟨[], [3]⟩ 1 = ⟨[], [3, 1]⟩
  ∧ stepA defaultConfig ⟨[], [1]⟩ (Act.dispatch (fun _ => FileOutcome.convertOk))
      = (⟨[], []⟩, [])
  ∧ stepA defaultConfig ⟨[(1, ⟨1, [], 50, 9, 0, true⟩)], [1]⟩
        (Act.dispatch (fun _ => FileOutcome.convertOk))
      = (⟨[(1, ⟨1, [], 50, 9, 0, true⟩)], []⟩, []) :=
  ⟨claim_C6_amended.1 ⟨[], [3]⟩ 1,
   claim_C6_amended.2.1 defaultConfig ⟨[], [1]⟩ 1 []
     (fun _ => FileOutcome.convertOk) rfl rfl,
   claim_C6_amended.2.2 defaultConfig ⟨[(1, ⟨1, [], 50, 9, 0, true⟩)], [1]⟩ 1 []
     (fun _ => FileOutcome.convertOk) ⟨1, [], 50, 9, 0, true⟩ rfl rfl rfl⟩

/-- C9 (counterexample): a batch is not frozen when its dispatch signal is
enqueued. User 1 uploads `a.svg` (batch created, one file); the debounce
timer fires, enqueueing the dispatch signal ([1] on the queue); before the
worker consumes it, user 1 uploads `b.svg` — and the code appends it to the
already-dispatched batch (two files), contrary to the claim that no file is
appended after dispatch. -/
theorem claim_C9_counterexample :
    (runActions defaultConfig initState
        [Act.addFile 1 ⟨[0], "a.svg", 3, 9⟩ 0 (some 50),
         Act.timerFire 1]).processing_queue = [1]
  ∧ ((findJob (runActions defaultConfig initState
        [Act.addFile 1 ⟨[0], "a.svg", 3, 9⟩ 0 (some 50),
         Act.timerFire 1]).batch_jobs 1).map (fun bj => bj.files.length))
      = some 1
  ∧ ((findJob (runActions defaultConfig initState
        [Act.addFile 1 ⟨[0], "a.svg", 3, 9⟩ 0 (some 50),
         Act.timerFire 1,
         Act.addFile 1 ⟨[1], "b.svg", 4, 9⟩ 1 (some 51)]).batch_jobs 1).map
        (fun bj => bj.files.length))
      = some 2 := by
  refine ⟨?_, ?_, ?_⟩ <;> decide

/-- C9 (amended): enqueueing a dispatch signal does not freeze a batch. The
append decision of `add_file_to_batch` is entirely independent of the
processing queue: for any queue contents, the resulting jobs map and return
value are identical — a file is appended exactly when the stored batch holds
fewer than `maxBatchSize` files, whether or not a dispatch signal for it is
pending or its batch is completed; only the size cap stops appends. -/
theorem claim_C9_amended :
    ∀ (cfg : Config) (st : ProcState) (q : List Nat) (uid : Nat) (d : List Nat)
      (fn : String) (mi ci now : Nat) (sm : Option Nat),
    (add_file_to_batch cfg { st with processing_queue := q } uid d fn mi ci
        now sm).state.batch_jobs
      = (add_file_to_batch cfg st uid d fn mi ci now sm).state.batch_jobs
    ∧ (add_file_to_batch cfg { st with processing_queue := q } uid d fn mi ci
        now sm).ok
      = (add_file_to_batch cfg st uid d fn mi ci now sm).ok := by
  intro cfg st q uid d fn mi ci now sm
  cases hj : findJob st.batch_jobs uid with
  | none => exact ⟨by simp [add_file_to_batch, hj], by simp [add_file_to_batch, hj]⟩
  | some bj =>
      by_cases hlt : bj.files.length < cfg.max_batch_size <;>
        exact ⟨by simp [add_file_to_batch, hj, hlt],
               by simp [add_file_to_batch, hj, hlt]⟩
